import Mathlib

/-!
Verification development for the rateflow repository core: the currency
code/pair value model, the rate aggregate and its validation, the
latest-rate and list-rates query handlers with their inverse-orientation
fallback, the idempotent fetch command, and the UnionPay provider
response resolution.

Modelling conventions:
* Go `float64` rate values are modelled as `ℚ` (exact arithmetic on the
  numeric values the code manipulates).
* Go `time.Time` instants are modelled as `ℤ` nanoseconds since the Unix
  epoch; `time.Time.After`/`Before` are strict `<` on that axis.
* Go `(T, error)` returns are modelled as `Except` values, or as
  `T × Option Err` where the code may read the `T` component even when an
  error is present.
* Effectful collaborators (store, cache, provider) are modelled as pure
  behaviours passed to the handlers; handlers additionally return the
  ordered list of collaborator calls they perform, so that claims about
  which calls happen can be stated.
-/

deriving instance DecidableEq for Except

namespace Rateflow

/-- `strings.Split` with a one-character separator, implemented by
structural recursion on the character list so that it evaluates inside
the kernel. -/
def splitChars (sep : Char) : List Char → List (List Char)
  | [] => [[]]
  | c :: rest =>
    let r := splitChars sep rest
    if c = sep then [] :: r
    else
      match r with
      | [] => [[c]]
      | h :: t => (c :: h) :: t

/-- `strings.Split(s, sep)` for a one-character separator. -/
def goSplit (s : String) (sep : Char) : List String :=
  (splitChars sep s.data).map String.mk

/-- `strings.TrimSpace`: drop leading and trailing whitespace. -/
def goTrim (s : String) : String :=
  ⟨(s.data.dropWhile Char.isWhitespace).reverse.dropWhile Char.isWhitespace |>.reverse⟩

/-- `strings.ToUpper` (ASCII, which covers every string the code
handles). -/
def goToUpper (s : String) : String := ⟨s.data.map Char.toUpper⟩

/-- `strings.Contains(s, c)` for a one-character needle. -/
def goContains (s : String) (c : Char) : Bool := s.data.contains c

/-- Go `len(s)`; byte length coincides with character count on the
ASCII strings involved. -/
def goLen (s : String) : Nat := s.data.length

/-- Go slice `s[:n]`. -/
def goTake (s : String) (n : Nat) : String := ⟨s.data.take n⟩

/-- Go slice `s[n:]`. -/
def goDrop (s : String) (n : Nat) : String := ⟨s.data.drop n⟩

/-- Go source `internal/domain/currency/code.go`: the closed set of
supported currency codes (`validCodes`). -/
def validCodes : List String := ["CNY", "JPY", "USD", "EUR", "GBP", "HKD", "KRW", "SGD"]

/-- `Code.IsValid` from `code.go`: membership in `validCodes`. -/
def Code.IsValid (c : String) : Bool := validCodes.contains c

/-- `NewCode` from `code.go`: trim whitespace, uppercase, then check
validity. -/
def NewCode (s : String) : Except String String :=
  let code := goToUpper (goTrim s)
  if Code.IsValid code then Except.ok code else Except.error ("invalid currency code: " ++ s)

/-- `Pair` from `internal/domain/currency/pair.go`: ordered
(base, quote) currency codes. The Go invariant base ≠ quote is enforced
by `NewPair`, not by the struct itself. -/
structure Pair where
  base : String
  quote : String
deriving DecidableEq, Repr

/-- `NewPair` from `pair.go`. -/
def NewPair (base quote : String) : Except String Pair :=
  if !Code.IsValid base then Except.error ("invalid base currency: " ++ base)
  else if !Code.IsValid quote then Except.error ("invalid quote currency: " ++ quote)
  else if base = quote then Except.error "base and quote currencies must be different"
  else Except.ok ⟨base, quote⟩

/-- `Pair.String()` from `pair.go`: canonical `BASE/QUOTE` rendering
(named `str` here because `String` is the Lean type name). -/
def Pair.str (p : Pair) : String := p.base ++ "/" ++ p.quote

/-- `Pair.Inverse()` from `pair.go`: swap base and quote. -/
def Pair.Inverse (p : Pair) : Pair := ⟨p.quote, p.base⟩

/-- `Pair.ConvertRate()` from `pair.go`: reciprocal with the zero value
special-cased to zero. -/
def Pair.ConvertRate (_p : Pair) (rate : ℚ) : ℚ :=
  if rate = 0 then 0 else 1 / rate

/-- `ParsePair` from `pair.go`: uppercase and trim, then try a `/` split,
then a `-` split, then (for exactly 6 characters) a fixed 3+3 split;
validate both codes and delegate to `NewPair`. -/
def ParsePair (s : String) : Except String Pair :=
  let t := goTrim (goToUpper s)
  let split : Except String (String × String) :=
    if goContains t '/' then
      match goSplit t '/' with
      | [b, q] => Except.ok (b, q)
      | _ => Except.error ("invalid pair format: " ++ t)
    else if goContains t '-' then
      match goSplit t '-' with
      | [b, q] => Except.ok (b, q)
      | _ => Except.error ("invalid pair format: " ++ t)
    else if goLen t = 6 then
      Except.ok (goTake t 3, goDrop t 3)
    else Except.error ("invalid pair format: " ++ t)
  match split with
  | Except.error e => Except.error e
  | Except.ok (b, q) =>
    match NewCode b, NewCode q with
    | Except.error e, _ => Except.error e
    | Except.ok _, Except.error e => Except.error e
    | Except.ok baseCode, Except.ok quoteCode => NewPair baseCode quoteCode

/-- Source tags from `internal/domain/rate/rate.go`. -/
def SourceUnionPay : String := "unionpay"

/-- `SourceECB` from `rate.go`. -/
def SourceECB : String := "ecb"

/-- `SourceOpenExchange` from `rate.go`. -/
def SourceOpenExchange : String := "openexchange"

/-- `SourceManual` from `rate.go`. -/
def SourceManual : String := "manual"

/-- The `Rate` aggregate from `rate.go`. Times are ℤ nanoseconds since
the Unix epoch, values are exact rationals. -/
structure Rate where
  id : String
  pair : Pair
  value : ℚ
  effectiveDate : ℤ
  source : String
  createdAt : ℤ
  updatedAt : ℤ
deriving DecidableEq, Repr

/-- 24 hours in nanoseconds (`24 * time.Hour`). -/
def nanosPerDay : ℤ := 86400000000000

/-- `time.Date(2000, 1, 1, 0, 0, 0, 0, time.UTC)` in epoch nanoseconds. -/
def year2000 : ℤ := 946684800000000000

/-- `Rate.isValidSource` from `rate.go`: linear scan of the closed
source set. -/
def Rate.isValidSource (r : Rate) : Bool :=
  [SourceUnionPay, SourceECB, SourceOpenExchange, SourceManual].contains r.source

/-- `Rate.Validate` from `rate.go`, with the construction instant `now`
made explicit (the Go code reads `time.Now()`). -/
def Rate.Validate (now : ℤ) (r : Rate) : Except String Unit :=
  if r.value ≤ 0 then Except.error "rate value must be positive"
  else if now + nanosPerDay < r.effectiveDate then
    Except.error "effective date cannot be more than 1 day in the future"
  else if r.effectiveDate < year2000 then
    Except.error "effective date is too far in the past"
  else if !r.isValidSource then Except.error ("invalid source: " ++ r.source)
  else Except.ok ()

/-- `NewRate` from `rate.go`: build the aggregate (fresh uuid and
`time.Now()` are made explicit parameters `id`/`now`) and validate. -/
def NewRate (id : String) (now : ℤ) (pair : Pair) (value : ℚ) (effectiveDate : ℤ)
    (source : String) : Except String Rate :=
  let rate : Rate := ⟨id, pair, value, effectiveDate, source, now, now⟩
  match rate.Validate now with
  | Except.error e => Except.error e
  | Except.ok _ => Except.ok rate

/-- `dto.RateResponse` from `internal/application/dto`. -/
structure RateResponse where
  id : String
  pair : String
  baseCurrency : String
  quoteCurrency : String
  rate : ℚ
  effectiveDate : ℤ
  source : String
  createdAt : ℤ
  updatedAt : ℤ
deriving DecidableEq, Repr

/-- A store error as observed by the query handlers. The repository
(`rate_repository.go`) surfaces the gorm record-not-found condition as
`rate.ErrRateNotFound` and passes every other error through; the
distinction matters only to claims, never to the handler code, which
branches solely on error-vs-nil. -/
inductive StoreErr
  | notFound
  | other (msg : String)
deriving DecidableEq, Repr

/-- The collaborators of `GetLatestRateHandler`
(`internal/application/query/get_latest_rate.go`): the cache `Get`
behaviour (`some` = cache hit) and the repository `FindLatest`
behaviour, both pure functions of their arguments. -/
structure LatestEnv where
  cacheGet : String → Option RateResponse
  findLatest : Pair → Except StoreErr Rate

/-- One collaborator call of the latest-rate handler, recorded in
order. -/
inductive LatestCall
  | cacheGet (key : String)
  | findLatest (pair : Pair)
  | cacheSet (key : String) (value : RateResponse)
deriving DecidableEq, Repr

/-- `toDTO` of `get_latest_rate.go`. -/
def GetLatest.toDTO (r : Rate) : RateResponse :=
  ⟨r.id, r.pair.str, r.pair.base, r.pair.quote, r.value, r.effectiveDate, r.source,
    r.createdAt, r.updatedAt⟩

/-- `toDTOInverted` of `get_latest_rate.go`: displayed pair is the
requested pair, displayed value is `r.Pair().ConvertRate(r.Value())`,
every other field is copied from the stored rate. -/
def GetLatest.toDTOInverted (r : Rate) (requestedPair : Pair) : RateResponse :=
  let invertedRate := r.pair.ConvertRate r.value
  ⟨r.id, requestedPair.str, requestedPair.base, requestedPair.quote, invertedRate,
    r.effectiveDate, r.source, r.createdAt, r.updatedAt⟩

/-- `GetLatestRateHandler.Handle` of `get_latest_rate.go`. Returns the
handler result together with the ordered collaborator call trace. Cache
`Set` failures are logged and swallowed by the Go code, so the `Set`
call appears in the trace but cannot affect the result. Note the code
falls back to the inverse pair whenever `FindLatest` returns any error
(`if err != nil`), and on a double failure returns the error of the
second (inverse) lookup, into which `err` was reassigned. -/
def GetLatest.Handle (env : LatestEnv) (pair : Pair) :
    Except StoreErr RateResponse × List LatestCall :=
  let cacheKey := "latest:" ++ pair.str
  match env.cacheGet cacheKey with
  | some cached => (Except.ok cached, [LatestCall.cacheGet cacheKey])
  | none =>
    match env.findLatest pair with
    | Except.ok r =>
      let result := GetLatest.toDTO r
      (Except.ok result,
        [LatestCall.cacheGet cacheKey, LatestCall.findLatest pair,
          LatestCall.cacheSet cacheKey result])
    | Except.error _ =>
      let inversePair := pair.Inverse
      match env.findLatest inversePair with
      | Except.error e2 =>
        (Except.error e2,
          [LatestCall.cacheGet cacheKey, LatestCall.findLatest pair,
            LatestCall.findLatest inversePair])
      | Except.ok r =>
        let result := GetLatest.toDTOInverted r pair
        (Except.ok result,
          [LatestCall.cacheGet cacheKey, LatestCall.findLatest pair,
            LatestCall.findLatest inversePair, LatestCall.cacheSet cacheKey result])

/-- `toDTOInverted` of the list handler (`list_rates.go`), textually the
same conversion as the latest handler's. -/
def ListRates.toDTOInverted (r : Rate) (requestedPair : Pair) : RateResponse :=
  let invertedRate := r.pair.ConvertRate r.value
  ⟨r.id, requestedPair.str, requestedPair.base, requestedPair.quote, invertedRate,
    r.effectiveDate, r.source, r.createdAt, r.updatedAt⟩

/-- `toDTO` of the list handler (`list_rates.go`). -/
def ListRates.toDTO (r : Rate) : RateResponse :=
  ⟨r.id, r.pair.str, r.pair.base, r.pair.quote, r.value, r.effectiveDate, r.source,
    r.createdAt, r.updatedAt⟩

/-- The requested pair of the concrete latest-query scenarios. -/
def pairCNYJPY : Pair := ⟨"CNY", "JPY"⟩

/-- A stored `JPY/CNY = 0.05` rate (the only row of the C1 scenario
store). -/
def rateJPYCNY : Rate :=
  ⟨"row-1", ⟨"JPY", "CNY"⟩, 1 / 20, 1700000000000000000, "unionpay",
    1700000000000000000, 1700000000000000000⟩

/-- C1 scenario collaborators: empty cache, store holding only the
`JPY/CNY` row (`NotFound` for every other orientation). -/
def envC1 : LatestEnv where
  cacheGet := fun _ => none
  findLatest := fun p =>
    if p = ⟨"JPY", "CNY"⟩ then Except.ok rateJPYCNY else Except.error StoreErr.notFound

/-- C2 scenario collaborators: empty cache, direct lookup failing with a
generic (non-not-found) store error, inverse lookup succeeding. -/
def envC2 : LatestEnv where
  cacheGet := fun _ => none
  findLatest := fun p =>
    if p = ⟨"JPY", "CNY"⟩ then Except.ok rateJPYCNY
    else Except.error (StoreErr.other "database error")

/-- `genericrepo.Pagination` from `pkg/genericrepo` (Go `int`/`int64`
fields modelled as `Int`). -/
structure Pagination where
  page : Int
  pageSize : Int
  total : Int
  totalPages : Int
deriving DecidableEq, Repr

/-- `Pagination.CalculateTotalPages` from `pkg/genericrepo`:
`ceil(total/pageSize)` via `(total + pageSize - 1) / pageSize`, guarded
by `pageSize > 0`. Go and Lean integer division agree on the
non-negative operands that occur. -/
def Pagination.calculateTotalPages (p : Pagination) : Pagination :=
  if 0 < p.pageSize then { p with totalPages := (p.total + p.pageSize - 1) / p.pageSize }
  else p

/-- `ListRatesResult` from `list_rates.go`. -/
structure ListRatesResult where
  items : List RateResponse
  pagination : Pagination
deriving DecidableEq, Repr

/-- Collaborators of `ListRatesHandler` (`list_rates.go`): results of
`FindAll` (filtered by the given pair's base/quote with the handler's
fixed ordering and pagination options), of `Count` (filtered by the
pair), and of `FindByDateRange` for the pair, all pure in the pair.
Each is modelled as the Go two-valued return; Go yields a nil slice
alongside an error, and the handler never reads the slice on the error
path. `Count`'s `int64` is a `Nat` since it counts rows. -/
structure ListEnv where
  findAll : Pair → List Rate × Option StoreErr
  count : Pair → Nat × Option StoreErr
  findByDateRange : Pair → List Rate × Option StoreErr

/-- One repository call of the list handler, recorded in order. -/
inductive ListCall
  | findAll (pair : Pair)
  | count (pair : Pair)
  | findByDateRange (pair : Pair)
deriving DecidableEq, Repr

/-- Instrumented output of the list handler: the Go return value plus
the final value of the local `needsInversion` and the `directCount`
used in the selection comparison, and the repository call trace. -/
structure ListOut where
  result : Except StoreErr ListRatesResult
  usedInverse : Bool
  directCountUsed : Nat
  calls : List ListCall
deriving Repr

/-- Lines 128–171 of `list_rates.go` Handle: recount on the selected
orientation (`total, err = Count(...)`, which overwrites `err`), then
DTO conversion of the selected rows (inverted when `needsInversion`)
and pagination assembly. -/
def ListRates.finish (env : ListEnv) (pair : Pair) (page pageSize : Int)
    (rates : List Rate) (needsInversion : Bool) (directCount : Nat)
    (calls : List ListCall) : ListOut :=
  let countPair := if needsInversion then pair.Inverse else pair
  let (total, terr) := env.count countPair
  let calls2 := calls ++ [ListCall.count countPair]
  match terr with
  | some e =>
    ⟨Except.error e, needsInversion, directCount, calls2⟩
  | none =>
    let items := rates.map fun r =>
      if needsInversion then ListRates.toDTOInverted r pair else ListRates.toDTO r
    ⟨Except.ok
        { items := items,
          pagination := Pagination.calculateTotalPages ⟨page, pageSize, (total : Int), 0⟩ },
      needsInversion, directCount, calls2⟩

/-- `ListRatesHandler.Handle` of `list_rates.go` in the mode without an
explicit date range (lines 53–171): direct `FindAll`; `Count` of the
direct orientation only when the direct query succeeded with a
non-empty page (otherwise `directCount` stays 0); inverse consultation
when the direct query errored, returned zero rows, or `directCount`
is below 10; the inverse page replaces the direct one when the inverse
count exceeds `directCount`, or when the direct query failed and the
inverse succeeded; both failing returns the original direct error. -/
def ListRates.Handle (env : ListEnv) (pair : Pair) (page pageSize : Int) : ListOut :=
  let (rates0, derr) := env.findAll pair
  let directCount : Nat := if derr = none ∧ rates0 ≠ [] then (env.count pair).1 else 0
  let calls0 : List ListCall :=
    [ListCall.findAll pair] ++ (if derr = none ∧ rates0 ≠ [] then [ListCall.count pair] else [])
  if derr ≠ none ∨ rates0 = [] ∨ directCount < 10 then
    let inversePair := pair.Inverse
    let (invRates, ierr) := env.findAll inversePair
    let inverseCount : Nat :=
      if ierr = none ∧ invRates ≠ [] then (env.count inversePair).1 else 0
    let calls1 := calls0 ++ [ListCall.findAll inversePair]
      ++ (if ierr = none ∧ invRates ≠ [] then [ListCall.count inversePair] else [])
    if ierr = none ∧ directCount < inverseCount then
      ListRates.finish env pair page pageSize invRates true directCount calls1
    else
      match derr with
      | some e =>
        if ierr ≠ none then ⟨Except.error e, false, directCount, calls1⟩
        else ListRates.finish env pair page pageSize invRates true directCount calls1
      | none => ListRates.finish env pair page pageSize rates0 false directCount calls1
  else
    ListRates.finish env pair page pageSize rates0 false directCount calls0

/-- The `directCount` value the selection comparison of
`ListRates.Handle` works with: the direct orientation's `Count` result
when the direct `FindAll` succeeded with a non-empty page, 0
otherwise. -/
def ListRates.directCountVal (env : ListEnv) (pair : Pair) : Nat :=
  if (env.findAll pair).2 = none ∧ (env.findAll pair).1 ≠ [] then (env.count pair).1 else 0

/-- The `inverseCount` value the selection comparison of
`ListRates.Handle` works with. -/
def ListRates.inverseCountVal (env : ListEnv) (pair : Pair) : Nat :=
  if (env.findAll pair.Inverse).2 = none ∧ (env.findAll pair.Inverse).1 ≠ [] then
    (env.count pair.Inverse).1
  else 0

/-- Instrumented output of the date-range mode of the list handler. -/
structure DateRangeOut where
  result : Except StoreErr ListRatesResult
  usedInverse : Bool
  calls : List ListCall
deriving Repr

/-- Lines 250–291 of `list_rates.go` `handleDateRangeQuery`: the
selected list is reversed unconditionally (the code's comment asserts
`FindByDateRange` returns ascending order), `total` is the full length,
pagination is applied by slicing `[(page-1)*pageSize :
page*pageSize]` clamped to the available length (Go panics on a
negative start index, so `page ≥ 1` is assumed by all uses), and the
slice is converted to DTOs. -/
def ListRates.finishDateRange (pair : Pair) (page pageSize : Int)
    (selected : List Rate) (needsInversion : Bool) (calls : List ListCall) : DateRangeOut :=
  let rates := selected.reverse
  let total : Int := rates.length
  let startIdx : Int := (page - 1) * pageSize
  let endIdx : Int := startIdx + pageSize
  let paged : List Rate :=
    if (rates.length : Int) ≤ startIdx then []
    else
      let e := if (rates.length : Int) < endIdx then (rates.length : Int) else endIdx
      (rates.drop startIdx.toNat).take (e - startIdx).toNat
  let items := paged.map fun r =>
    if needsInversion then ListRates.toDTOInverted r pair else ListRates.toDTO r
  ⟨Except.ok
      { items := items,
        pagination := Pagination.calculateTotalPages ⟨page, pageSize, total, 0⟩ },
    needsInversion, calls⟩

/-- `handleDateRangeQuery` of `list_rates.go` (lines 206–292): direct
`FindByDateRange`, counts taken as list lengths, the same trigger and
selection rule as the no-date-range mode, then
`ListRates.finishDateRange`. -/
def ListRates.handleDateRangeQuery (env : ListEnv) (pair : Pair) (page pageSize : Int) :
    DateRangeOut :=
  let (rates0, derr) := env.findByDateRange pair
  let directCount : Nat := rates0.length
  let calls0 := [ListCall.findByDateRange pair]
  if derr ≠ none ∨ rates0 = [] ∨ directCount < 10 then
    let inversePair := pair.Inverse
    let (invRates, ierr) := env.findByDateRange inversePair
    let inverseCount : Nat := invRates.length
    let calls1 := calls0 ++ [ListCall.findByDateRange inversePair]
    if ierr = none ∧ directCount < inverseCount then
      ListRates.finishDateRange pair page pageSize invRates true calls1
    else
      match derr with
      | some e =>
        if ierr ≠ none then ⟨Except.error e, false, calls1⟩
        else ListRates.finishDateRange pair page pageSize invRates true calls1
      | none => ListRates.finishDateRange pair page pageSize rates0 false calls1
  else
    ListRates.finishDateRange pair page pageSize rates0 false calls0

/-- `ExistsByPairAndDate` of `rate_repository.go` over the modelled
in-memory table: a row with the pair's orientation and the date
exists. -/
def existsByPairAndDate (store : List Rate) (pair : Pair) (date : ℤ) : Bool :=
  store.any fun m => m.pair == pair && m.effectiveDate == date

/-- The upsert key of `Create` in `rate_repository.go`:
(base, quote, effective date, source). -/
def rateKeyMatches (m r : Rate) : Bool :=
  m.pair == r.pair && m.effectiveDate == r.effectiveDate && m.source == r.source

/-- `Create` of `rate_repository.go`: `FirstOrCreate` keyed on
(base, quote, effective date, source) — update the value and updated-at
of the first matching row, or append the new row. -/
def storeCreate (now : ℤ) : List Rate → Rate → List Rate
  | [], r => [r]
  | m :: rest, r =>
    if rateKeyMatches m r then { m with value := r.value, updatedAt := now } :: rest
    else m :: storeCreate now rest r

/-- Collaborators of `FetchRateHandler`
(`internal/application/command/fetch_rate.go`): the provider
`FetchRate` behaviour and name, plus the construction instant and the
fresh uuid that `rate.NewRate` would draw. -/
structure FetchEnv where
  providerFetchRate : Pair → ℤ → Except String ℚ
  providerName : String
  now : ℤ
  newId : String

/-- Output of one fetch-command run: the Go error return, the store
table after the run, and how many provider calls were made. -/
structure FetchOut where
  result : Except String Unit
  store : List Rate
  providerCalls : Nat
deriving Repr

/-- `FetchRateHandler.Handle` of `fetch_rate.go`: if a row for
(pair, date) exists, succeed with no provider call and no write;
otherwise fetch from the provider, build the entity through `NewRate`
validation, and upsert it. The store is the in-memory table (its
existence check cannot fail in this model; the Go error path for a
failing existence check, and the best-effort cache invalidation whose
failure is only logged, are outside the claims). -/
def FetchRate.Handle (env : FetchEnv) (store : List Rate) (pair : Pair) (date : ℤ) :
    FetchOut :=
  if existsByPairAndDate store pair date then ⟨Except.ok (), store, 0⟩
  else
    match env.providerFetchRate pair date with
    | Except.error e => ⟨Except.error ("fetch rate from provider: " ++ e), store, 1⟩
    | Except.ok rateValue =>
      match NewRate env.newId env.now pair rateValue date env.providerName with
      | Except.error e => ⟨Except.error ("create rate entity: " ++ e), store, 1⟩
      | Except.ok r => ⟨Except.ok (), storeCreate env.now store r, 1⟩

/-- A row of the UnionPay response's `exchangeRateJson` array
(src/unnamed/part_001). -/
structure ResponseItem where
  transCur : String
  baseCur : String
  rateData : ℚ
deriving DecidableEq, Repr

/-- The row-resolution loop of the UnionPay `FetchRate`
(src/unnamed/part_001, lines 103–124), after the transport and JSON
decoding it follows: return the first row with `transCur` equal to the
requested quote and `baseCur` equal to the requested base, else the
provider's rate-not-found error. -/
def UnionPay.resolveRate (pair : Pair) : List ResponseItem → Except String ℚ
  | [] =>
    Except.error
      ("rate not found for " ++ pair.str ++ " (possibly weekend/holiday or unsupported pair)")
  | item :: rest =>
    if item.transCur == pair.quote && item.baseCur == pair.base then Except.ok item.rateData
    else UnionPay.resolveRate pair rest

/-- The inverse-orientation page of the C3 scenario: ten stored
`JPY/CNY` rows (the first page of the fifty). -/
def invPageC3 : List Rate :=
  (List.range 10).map fun i =>
    ⟨"inv-row", ⟨"JPY", "CNY"⟩, 1 / 20, 946684800000000000 + (i : ℤ), "unionpay", 0, 0⟩

/-- The direct-orientation page of the C3 scenario: three stored
`CNY/JPY` rows. -/
def directPageC3 : List Rate :=
  (List.range 3).map fun i =>
    ⟨"dir-row", ⟨"CNY", "JPY"⟩, 20, 946684800000000000 + (i : ℤ), "unionpay", 0, 0⟩

/-- C3 scenario collaborators: 3 direct-orientation rows and 50
inverse-orientation rows (page of 10 returned). -/
def envC3 : ListEnv where
  findAll := fun p =>
    if p = ⟨"JPY", "CNY"⟩ then (invPageC3, none)
    else if p = ⟨"CNY", "JPY"⟩ then (directPageC3, none)
    else ([], none)
  count := fun p =>
    if p = ⟨"JPY", "CNY"⟩ then (50, none)
    else if p = ⟨"CNY", "JPY"⟩ then (3, none)
    else (0, none)
  findByDateRange := fun _ => ([], none)

/-- The older of the two rows of the C4 scenario. -/
def rEarlyC4 : Rate :=
  ⟨"row-early", ⟨"CNY", "JPY"⟩, 20, 946684800000000000, "unionpay", 0, 0⟩

/-- The more recent of the two rows of the C4 scenario. -/
def rLateC4 : Rate :=
  ⟨"row-late", ⟨"CNY", "JPY"⟩, 21, 946684800000000000 + 86400000000000, "unionpay", 0, 0⟩

/-- C4 scenario collaborators: `FindByDateRange` for the requested pair
returns the two rows ordered descending by effective date, exactly as
the repository (`rate_repository.go`, `Order("effective_date DESC")`)
does; the inverse orientation is empty. -/
def envC4 : ListEnv where
  findAll := fun _ => ([], none)
  count := fun _ => (0, none)
  findByDateRange := fun p =>
    if p = ⟨"CNY", "JPY"⟩ then ([rLateC4, rEarlyC4], none) else ([], none)

/-- C5 scenario collaborators: a provider answering `20` for every
request. -/
def envC5 : FetchEnv where
  providerFetchRate := fun _ _ => Except.ok 20
  providerName := "unionpay"
  now := 946684800000000000
  newId := "fetched-row"

/-- C9 scenario collaborators: the direct page is empty while the
direct orientation would count 100 rows; the inverse page has one row
and the inverse orientation counts 1 row. -/
def envC9 : ListEnv where
  findAll := fun p => if p = ⟨"JPY", "CNY"⟩ then ([rateJPYCNY], none) else ([], none)
  count := fun p => if p = ⟨"JPY", "CNY"⟩ then (1, none) else (100, none)
  findByDateRange := fun _ => ([], none)

/-- C7: `NewRate` succeeds if and only if the value is positive, the
effective date is at most 1 day after construction time, the effective
date is not before 2000-01-01, and the source is in the closed set
`unionpay`/`ecb`/`openexchange`/`manual`; on any violation it returns a
validation error and no `Rate`. -/
theorem C7_rate_validation (id : String) (now : ℤ) (pair : Pair) (value : ℚ)
    (effectiveDate : ℤ) (source : String) :
    (∃ r, NewRate id now pair value effectiveDate source = Except.ok r) ↔
      (0 < value ∧ effectiveDate ≤ now + nanosPerDay ∧ year2000 ≤ effectiveDate ∧
        source ∈ (["unionpay", "ecb", "openexchange", "manual"] : List String)) := by
  unfold NewRate Rate.Validate Rate.isValidSource
  simp only [SourceUnionPay, SourceECB, SourceOpenExchange, SourceManual]
  constructor
  · rintro ⟨r, hr⟩
    split_ifs at hr with h1 h2 h3 h4
    refine ⟨by linarith [not_le.mp h1], by linarith [not_lt.mp h2], by linarith [not_lt.mp h3], ?_⟩
    have h4' := Bool.not_eq_true _ ▸ h4
    simp only [Bool.not_eq_true', Bool.not_eq_false] at h4
    simpa [List.contains, List.elem_eq_mem, List.mem_cons, decide_eq_true_eq] using h4
  · rintro ⟨h1, h2, h3, h4⟩
    have hv : ¬ value ≤ 0 := not_le.mpr h1
    have hf : ¬ now + nanosPerDay < effectiveDate := not_lt.mpr h2
    have hp : ¬ effectiveDate < year2000 := not_lt.mpr h3
    fin_cases h4 <;> simp [hv, hf, hp]

/-- C8: for every valid pair `p` (both codes in the closed set and
base ≠ quote, the `NewPair` invariant), `ParsePair (p.String())`
succeeds and returns `p`; and the inputs `"CNY/JPY"`, `"CNY-JPY"` and
`"CNYJPY"` all parse to the same pair with base `CNY` and quote `JPY`. -/
theorem C8_parse_round_trip :
    (∀ b q : String, Code.IsValid b = true → Code.IsValid q = true → b ≠ q →
      ParsePair (Pair.str ⟨b, q⟩) = Except.ok ⟨b, q⟩)
    ∧ ParsePair "CNY/JPY" = Except.ok ⟨"CNY", "JPY"⟩
    ∧ ParsePair "CNY-JPY" = Except.ok ⟨"CNY", "JPY"⟩
    ∧ ParsePair "CNYJPY" = Except.ok ⟨"CNY", "JPY"⟩ := by
  refine ⟨?_, by decide, by decide, by decide⟩
  intro b q hb hq hne
  have hb1 : b ∈ validCodes := by
    simpa [Code.IsValid, List.contains, List.elem_eq_mem, decide_eq_true_eq] using hb
  have hq1 : q ∈ validCodes := by
    simpa [Code.IsValid, List.contains, List.elem_eq_mem, decide_eq_true_eq] using hq
  fin_cases hb1 <;> fin_cases hq1 <;> first | exact absurd rfl hne | decide

/-- Witness for C8: the round-trip part applied to the concrete valid
pair GBP/SGD. -/
theorem C8_parse_round_trip_witness :
    Code.IsValid "GBP" = true ∧ Code.IsValid "SGD" = true ∧ "GBP" ≠ "SGD" ∧
      ParsePair (Pair.str ⟨"GBP", "SGD"⟩) = Except.ok ⟨"GBP", "SGD"⟩ :=
  ⟨by decide, by decide, by decide,
    C8_parse_round_trip.1 "GBP" "SGD" (by decide) (by decide) (by decide)⟩

/-- C1: on a cache miss, if the direct `FindLatest` reports not-found
and the inverse `FindLatest` returns a stored rate `r`, the latest-rate
query succeeds with a response whose displayed pair is the requested
pair and whose displayed value is `r.Pair().ConvertRate(r.Value())`. -/
theorem C1_latest_inverse_fallback (env : LatestEnv) (pair : Pair) (r : Rate)
    (hcache : env.cacheGet ("latest:" ++ pair.str) = none)
    (hdirect : env.findLatest pair = Except.error StoreErr.notFound)
    (hinv : env.findLatest pair.Inverse = Except.ok r) :
    (GetLatest.Handle env pair).1 = Except.ok (GetLatest.toDTOInverted r pair)
    ∧ (GetLatest.toDTOInverted r pair).pair = pair.str
    ∧ (GetLatest.toDTOInverted r pair).rate = r.pair.ConvertRate r.value := by
  refine ⟨?_, rfl, rfl⟩
  simp [GetLatest.Handle, hcache, hdirect, hinv]

/-- Witness for C1, the scenario of the claim: an empty cache and a
store containing only `JPY/CNY = 0.05`; `GetLatest(CNY/JPY)` returns
pair `"CNY/JPY"` with value `20`, not a not-found error. -/
theorem C1_latest_inverse_fallback_witness :
    envC1.cacheGet ("latest:" ++ pairCNYJPY.str) = none
    ∧ envC1.findLatest pairCNYJPY = Except.error StoreErr.notFound
    ∧ envC1.findLatest pairCNYJPY.Inverse = Except.ok rateJPYCNY
    ∧ (GetLatest.Handle envC1 pairCNYJPY).1
        = Except.ok (GetLatest.toDTOInverted rateJPYCNY pairCNYJPY)
    ∧ (GetLatest.toDTOInverted rateJPYCNY pairCNYJPY).pair = "CNY/JPY"
    ∧ (GetLatest.toDTOInverted rateJPYCNY pairCNYJPY).rate = 20 :=
  ⟨rfl, rfl, rfl,
    (C1_latest_inverse_fallback envC1 pairCNYJPY rateJPYCNY rfl rfl rfl).1,
    rfl, by norm_num [GetLatest.toDTOInverted, Pair.ConvertRate, rateJPYCNY]⟩

/-- C2 counterexample: with an empty cache, a direct `FindLatest`
failing with the generic store error `"database error"` (not the
not-found condition) and an inverse row present, the handler does
attempt `FindLatest` on the inverse pair and returns a successful
inverted response — it neither skips the inverse retry nor propagates
the error, contradicting the claim at this input. -/
theorem C2_error_discrimination_counterexample :
    LatestCall.findLatest pairCNYJPY.Inverse ∈ (GetLatest.Handle envC2 pairCNYJPY).2
    ∧ envC2.findLatest pairCNYJPY = Except.error (StoreErr.other "database error")
    ∧ (GetLatest.Handle envC2 pairCNYJPY).1
        = Except.ok (GetLatest.toDTOInverted rateJPYCNY pairCNYJPY) := by
  refine ⟨?_, rfl, rfl⟩
  show LatestCall.findLatest pairCNYJPY.Inverse ∈
    [LatestCall.cacheGet ("latest:" ++ pairCNYJPY.str), LatestCall.findLatest pairCNYJPY,
      LatestCall.findLatest pairCNYJPY.Inverse,
      LatestCall.cacheSet ("latest:" ++ pairCNYJPY.str)
        (GetLatest.toDTOInverted rateJPYCNY pairCNYJPY)]
  simp

/-- C2 amended: on a cache miss the handler retries the inverse pair on
ANY direct `FindLatest` error, not only on the not-found condition; if
the inverse lookup also fails, the inverse lookup's error is returned,
and if it succeeds, an inverted response is returned (the direct error
is swallowed). -/
theorem C2_amended_any_error_fallback (env : LatestEnv) (pair : Pair) (e : StoreErr)
    (hcache : env.cacheGet ("latest:" ++ pair.str) = none)
    (hdirect : env.findLatest pair = Except.error e) :
    LatestCall.findLatest pair.Inverse ∈ (GetLatest.Handle env pair).2
    ∧ (∀ e2, env.findLatest pair.Inverse = Except.error e2 →
        (GetLatest.Handle env pair).1 = Except.error e2)
    ∧ (∀ r, env.findLatest pair.Inverse = Except.ok r →
        (GetLatest.Handle env pair).1 = Except.ok (GetLatest.toDTOInverted r pair)) := by
  refine ⟨?_, ?_, ?_⟩
  · cases hinv : env.findLatest pair.Inverse <;>
      simp [GetLatest.Handle, hcache, hdirect, hinv]
  · intro e2 hinv
    simp [GetLatest.Handle, hcache, hdirect, hinv]
  · intro r hinv
    simp [GetLatest.Handle, hcache, hdirect, hinv]

/-- Witness for the amended C2, at the concrete counterexample
environment: the generic direct error leads to the inverse retry and an
inverted success. -/
theorem C2_amended_any_error_fallback_witness :
    envC2.cacheGet ("latest:" ++ pairCNYJPY.str) = none
    ∧ envC2.findLatest pairCNYJPY = Except.error (StoreErr.other "database error")
    ∧ (GetLatest.Handle envC2 pairCNYJPY).1
        = Except.ok (GetLatest.toDTOInverted rateJPYCNY pairCNYJPY) :=
  ⟨rfl, rfl,
    (C2_amended_any_error_fallback envC2 pairCNYJPY (StoreErr.other "database error")
      rfl rfl).2.2 rateJPYCNY rfl⟩

/-- C10: frame property of the inverse conversion used by both query
handlers: the response's id, effective date, source, created-at and
updated-at equal the stored rate's fields verbatim; only the displayed
pair (the requested pair) and the value (the reciprocal of the stored
value) differ; and the two handlers' conversions agree. -/
theorem C10_inverted_frame (r : Rate) (requested : Pair) :
    (GetLatest.toDTOInverted r requested).id = r.id
    ∧ (GetLatest.toDTOInverted r requested).effectiveDate = r.effectiveDate
    ∧ (GetLatest.toDTOInverted r requested).source = r.source
    ∧ (GetLatest.toDTOInverted r requested).createdAt = r.createdAt
    ∧ (GetLatest.toDTOInverted r requested).updatedAt = r.updatedAt
    ∧ (GetLatest.toDTOInverted r requested).pair = requested.str
    ∧ (GetLatest.toDTOInverted r requested).baseCurrency = requested.base
    ∧ (GetLatest.toDTOInverted r requested).quoteCurrency = requested.quote
    ∧ (GetLatest.toDTOInverted r requested).rate = r.pair.ConvertRate r.value
    ∧ ListRates.toDTOInverted r requested = GetLatest.toDTOInverted r requested
    ∧ (r.value ≠ 0 → (GetLatest.toDTOInverted r requested).rate = 1 / r.value) := by
  refine ⟨rfl, rfl, rfl, rfl, rfl, rfl, rfl, rfl, rfl, rfl, ?_⟩
  intro hv
  simp [GetLatest.toDTOInverted, Pair.ConvertRate, hv]

/-- Witness for C10 at the concrete stored rate of the C1 scenario. -/
theorem C10_inverted_frame_witness :
    (GetLatest.toDTOInverted rateJPYCNY pairCNYJPY).id = rateJPYCNY.id
    ∧ rateJPYCNY.value ≠ 0
    ∧ (GetLatest.toDTOInverted rateJPYCNY pairCNYJPY).rate = 1 / rateJPYCNY.value :=
  ⟨(C10_inverted_frame rateJPYCNY pairCNYJPY).1, by norm_num [rateJPYCNY],
    (C10_inverted_frame rateJPYCNY pairCNYJPY).2.2.2.2.2.2.2.2.2.2
      (by norm_num [rateJPYCNY])⟩

/-- Helper: a successful `NewRate` returns exactly the aggregate built
from its arguments. -/
theorem NewRate_ok_eq {id : String} {now : ℤ} {pair : Pair} {v : ℚ} {d : ℤ}
    {src : String} {r : Rate} (h : NewRate id now pair v d src = Except.ok r) :
    r = ⟨id, pair, v, d, src, now, now⟩ := by
  unfold NewRate at h
  cases hv : Rate.Validate now ⟨id, pair, v, d, src, now, now⟩ with
  | error e => simp [hv] at h
  | ok u => simp [hv] at h; exact h.symm

/-- Helper: on a store with no (pair, date) row, a run of the fetch
command with a successful provider call and a valid rate appends
exactly that row. -/
theorem FetchRate_first_run {env : FetchEnv} {store : List Rate} {pair : Pair} {date : ℤ}
    {v : ℚ} {r : Rate}
    (hex : existsByPairAndDate store pair date = false)
    (hprov : env.providerFetchRate pair date = Except.ok v)
    (hnew : NewRate env.newId env.now pair v date env.providerName = Except.ok r) :
    FetchRate.Handle env store pair date = ⟨Except.ok (), storeCreate env.now store r, 1⟩ := by
  unfold FetchRate.Handle
  simp [hex, hprov, hnew]

/-- Helper: appending to the end of a store with no key-matching row is
what `storeCreate` does when nothing matches the upsert key. -/
theorem storeCreate_append {now : ℤ} {store : List Rate} {r : Rate}
    (h : ∀ m ∈ store, rateKeyMatches m r = false) :
    storeCreate now store r = store ++ [r] := by
  induction store with
  | nil => rfl
  | cons m rest ih =>
    have hm := h m (List.mem_cons_self m rest)
    simp [storeCreate, hm, ih fun x hx => h x (List.mem_cons_of_mem m hx)]

/-- C5: fetch-command idempotency. If a (pair, date) row exists, the
command succeeds with no provider call and no store write. And starting
from a store with no such row, with the provider returning a value that
passes rate validation, two successive runs leave the second run a
no-op: one provider call in total, the second run writing nothing, and
exactly one stored (pair, date) row. -/
theorem C5_fetch_idempotency (env : FetchEnv) (store : List Rate) (pair : Pair) (date : ℤ) :
    (existsByPairAndDate store pair date = true →
      FetchRate.Handle env store pair date = ⟨Except.ok (), store, 0⟩)
    ∧ (∀ v r, existsByPairAndDate store pair date = false →
        env.providerFetchRate pair date = Except.ok v →
        NewRate env.newId env.now pair v date env.providerName = Except.ok r →
        (FetchRate.Handle env store pair date).result = Except.ok ()
        ∧ (FetchRate.Handle env store pair date).providerCalls = 1
        ∧ (FetchRate.Handle env (FetchRate.Handle env store pair date).store pair date)
            = ⟨Except.ok (), (FetchRate.Handle env store pair date).store, 0⟩
        ∧ ((FetchRate.Handle env store pair date).store.filter fun m =>
            m.pair == pair && m.effectiveDate == date).length = 1) := by
  constructor
  · intro hex
    unfold FetchRate.Handle
    simp [hex]
  · intro v r hex hprov hnew
    have hr : r = ⟨env.newId, pair, v, date, env.providerName, env.now, env.now⟩ :=
      NewRate_ok_eq hnew
    have hrun1 := FetchRate_first_run hex hprov hnew
    have hnomatch : ∀ m ∈ store, rateKeyMatches m r = false := by
      intro m hm
      have hfail : (m.pair == pair && m.effectiveDate == date) = false := by
        by_contra hcon
        have : existsByPairAndDate store pair date = true := by
          unfold existsByPairAndDate
          exact List.any_eq_true.mpr ⟨m, hm, by simpa using hcon⟩
        simp [this] at hex
      unfold rateKeyMatches
      subst hr
      simp only [Bool.and_eq_false_iff] at hfail ⊢
      rcases hfail with h1 | h2
      · exact Or.inl (Or.inl h1)
      · exact Or.inl (Or.inr h2)
    have hstore1 : (FetchRate.Handle env store pair date).store = store ++ [r] := by
      rw [hrun1]
      exact storeCreate_append hnomatch
    have hrmatch : (r.pair == pair && r.effectiveDate == date) = true := by
      subst hr; simp
    have hex2 : existsByPairAndDate (store ++ [r]) pair date = true := by
      unfold existsByPairAndDate
      exact List.any_eq_true.mpr ⟨r, by simp, hrmatch⟩
    refine ⟨by rw [hrun1], by rw [hrun1], ?_, ?_⟩
    · rw [hstore1]
      unfold FetchRate.Handle
      simp [hex2]
    · rw [hstore1, List.filter_append]
      have hfs : store.filter (fun m => m.pair == pair && m.effectiveDate == date) = [] := by
        rw [List.filter_eq_nil_iff]
        intro m hm
        intro hcon
        have : existsByPairAndDate store pair date = true := by
          unfold existsByPairAndDate
          exact List.any_eq_true.mpr ⟨m, hm, hcon⟩
        simp [this] at hex
      rw [hfs]
      simp [hrmatch]

/-- Witness for C5: empty store, the `CNY/JPY` pair, the epoch-2000
date and a provider answering 20; two runs make one provider call and
leave one stored row. -/
theorem C5_fetch_idempotency_witness :
    existsByPairAndDate [] pairCNYJPY 946684800000000000 = false
    ∧ (FetchRate.Handle envC5 [] pairCNYJPY 946684800000000000).providerCalls = 1
    ∧ (FetchRate.Handle envC5
        (FetchRate.Handle envC5 [] pairCNYJPY 946684800000000000).store
        pairCNYJPY 946684800000000000)
      = ⟨Except.ok (), (FetchRate.Handle envC5 [] pairCNYJPY 946684800000000000).store, 0⟩
    ∧ ((FetchRate.Handle envC5 [] pairCNYJPY 946684800000000000).store.filter fun m =>
        m.pair == pairCNYJPY && m.effectiveDate == (946684800000000000 : ℤ)).length = 1 := by
  have h := (C5_fetch_idempotency envC5 [] pairCNYJPY 946684800000000000).2
    20 ⟨"fetched-row", pairCNYJPY, 20, 946684800000000000, "unionpay",
      946684800000000000, 946684800000000000⟩ rfl rfl rfl
  exact ⟨rfl, h.2.1, h.2.2.1, h.2.2.2⟩

/-- C6: UnionPay provider response resolution. If the direct-orientation
search of the response rows finds a row (`transCur = quote`,
`baseCur = base`), the resolution returns that (first matching) row's
`rateData` verbatim; if no row matches, it fails with the provider's
rate-not-found condition. -/
theorem C6_provider_resolution (pair : Pair) (items : List ResponseItem) :
    (∀ i, items.find? (fun it => it.transCur == pair.quote && it.baseCur == pair.base)
        = some i →
      UnionPay.resolveRate pair items = Except.ok i.rateData
      ∧ i ∈ items ∧ i.transCur = pair.quote ∧ i.baseCur = pair.base)
    ∧ ((∀ i ∈ items, ¬(i.transCur = pair.quote ∧ i.baseCur = pair.base)) →
      UnionPay.resolveRate pair items = Except.error
        ("rate not found for " ++ pair.str ++
          " (possibly weekend/holiday or unsupported pair)")) := by
  have hchar : ∀ l : List ResponseItem, UnionPay.resolveRate pair l =
      match l.find? (fun it => it.transCur == pair.quote && it.baseCur == pair.base) with
      | some i => Except.ok i.rateData
      | none => Except.error
          ("rate not found for " ++ pair.str ++
            " (possibly weekend/holiday or unsupported pair)") := by
    intro l
    induction l with
    | nil => rfl
    | cons a rest ih =>
      cases ha : (a.transCur == pair.quote && a.baseCur == pair.base) with
      | true => simp [UnionPay.resolveRate, List.find?, ha]
      | false => simp [UnionPay.resolveRate, List.find?, ha, ih]
  constructor
  · intro i hfind
    have hp := List.find?_some hfind
    simp only [Bool.and_eq_true, beq_iff_eq] at hp
    refine ⟨?_, List.mem_of_find?_eq_some hfind, hp.1, hp.2⟩
    rw [hchar items, hfind]
  · intro hnone
    rw [hchar items]
    have hfnone : items.find?
        (fun it => it.transCur == pair.quote && it.baseCur == pair.base) = none := by
      rw [List.find?_eq_none]
      intro x hx
      simp only [Bool.and_eq_true, beq_iff_eq]
      exact fun hcon => hnone x hx ⟨hcon.1, hcon.2⟩
    rw [hfnone]

/-- Witness for C6: a one-row response matching `CNY/JPY` directly
resolves to its `rateData`; an empty response resolves to the
rate-not-found error. -/
theorem C6_provider_resolution_witness :
    UnionPay.resolveRate pairCNYJPY [⟨"JPY", "CNY", 20⟩] = Except.ok (20 : ℚ)
    ∧ UnionPay.resolveRate pairCNYJPY [] = Except.error
        ("rate not found for " ++ pairCNYJPY.str ++
          " (possibly weekend/holiday or unsupported pair)") :=
  ⟨((C6_provider_resolution pairCNYJPY [⟨"JPY", "CNY", 20⟩]).1 ⟨"JPY", "CNY", 20⟩ rfl).1,
    (C6_provider_resolution pairCNYJPY []).2 (by simp)⟩

/-- Helper: the recount-and-convert tail of the list handler keeps the
`directCount` it is given. -/
theorem ListRates.finish_directCountUsed (env : ListEnv) (pair : Pair) (page pageSize : Int)
    (rates : List Rate) (inv : Bool) (dc : Nat) (calls : List ListCall) :
    (ListRates.finish env pair page pageSize rates inv dc calls).directCountUsed = dc := by
  unfold ListRates.finish
  rcases h : env.count (if inv then pair.Inverse else pair) with ⟨total, terr⟩
  simp only [h]
  cases terr <;> simp

/-- Helper: the recount-and-convert tail of the list handler keeps the
`needsInversion` flag it is given. -/
theorem ListRates.finish_usedInverse (env : ListEnv) (pair : Pair) (page pageSize : Int)
    (rates : List Rate) (inv : Bool) (dc : Nat) (calls : List ListCall) :
    (ListRates.finish env pair page pageSize rates inv dc calls).usedInverse = inv := by
  unfold ListRates.finish
  rcases h : env.count (if inv then pair.Inverse else pair) with ⟨total, terr⟩
  simp only [h]
  cases terr <;> simp

/-- Helper: the recount-and-convert tail of the list handler appends
exactly one `Count` call on the selected orientation. -/
theorem ListRates.finish_calls (env : ListEnv) (pair : Pair) (page pageSize : Int)
    (rates : List Rate) (inv : Bool) (dc : Nat) (calls : List ListCall) :
    (ListRates.finish env pair page pageSize rates inv dc calls).calls
      = calls ++ [ListCall.count (if inv then pair.Inverse else pair)] := by
  unfold ListRates.finish
  rcases h : env.count (if inv then pair.Inverse else pair) with ⟨total, terr⟩
  simp only [h]
  cases terr <;> simp

/-- C3: list-rates reconciliation without an explicit date range. The
inverse orientation is consulted exactly when the direct query errored,
returned zero rows, or the direct count is below 10; the inverse result
set replaces the direct one exactly when (within that trigger) the
inverse count exceeds the direct count, or the direct query failed
while the inverse succeeded; and in the concrete scenario of 3 direct
rows versus 50 inverse rows, `List(pair, page=1, pageSize=10)` returns
the inverse page converted to the requested orientation with a
pagination total of 50. -/
theorem C3_list_reconciliation :
    (∀ env pair page pageSize, pair.base ≠ pair.quote →
      ((ListCall.findAll pair.Inverse ∈ (ListRates.Handle env pair page pageSize).calls) ↔
        ((env.findAll pair).2 ≠ none ∨ (env.findAll pair).1 = []
          ∨ ListRates.directCountVal env pair < 10))
      ∧ (((ListRates.Handle env pair page pageSize).usedInverse = true) ↔
          (((env.findAll pair).2 ≠ none ∨ (env.findAll pair).1 = []
              ∨ ListRates.directCountVal env pair < 10)
            ∧ (ListRates.directCountVal env pair < ListRates.inverseCountVal env pair
              ∨ ((env.findAll pair).2 ≠ none ∧ (env.findAll pair.Inverse).2 = none)))))
    ∧ (ListRates.Handle envC3 pairCNYJPY 1 10).usedInverse = true
    ∧ (ListRates.Handle envC3 pairCNYJPY 1 10).result = Except.ok
        { items := invPageC3.map fun r => ListRates.toDTOInverted r pairCNYJPY,
          pagination := ⟨1, 10, 50, 5⟩ } := by
  refine ⟨?_, rfl, rfl⟩
  intro env pair page pageSize hbq
  have hne : pair.Inverse ≠ pair := fun hcon => hbq ((congrArg Pair.base hcon).symm)
  rcases hd : env.findAll pair with ⟨rates0, derr⟩
  rcases hi : env.findAll pair.Inverse with ⟨invRates, ierr⟩
  unfold ListRates.Handle ListRates.directCountVal ListRates.inverseCountVal
  simp only [hd, hi]
  by_cases htrig : derr ≠ none ∨ rates0 = []
      ∨ (if derr = none ∧ rates0 ≠ [] then (env.count pair).1 else 0) < 10
  · rw [if_pos htrig]
    by_cases hsel : ierr = none ∧
        (if derr = none ∧ rates0 ≠ [] then (env.count pair).1 else 0)
          < (if ierr = none ∧ invRates ≠ [] then (env.count pair.Inverse).1 else 0)
    · rw [if_pos hsel]
      refine ⟨iff_of_true ?_ htrig, iff_of_true ?_ ⟨htrig, Or.inl hsel.2⟩⟩
      · simp [ListRates.finish_calls]
      · simp [ListRates.finish_usedInverse]
    · rw [if_neg hsel]
      cases derr with
      | some e =>
        dsimp only
        by_cases hierr : ierr ≠ none
        · rw [if_pos hierr]
          refine ⟨iff_of_true (by simp) htrig, iff_of_false (by simp) ?_⟩
          rintro ⟨-, hcon | hcon⟩
          · rw [if_neg (fun hh : ierr = none ∧ invRates ≠ [] => hierr hh.1)] at hcon
            exact Nat.not_lt_zero _ hcon
          · exact hierr hcon.2
        · rw [if_neg hierr]
          push_neg at hierr
          refine ⟨iff_of_true ?_ htrig, iff_of_true ?_ ⟨htrig, Or.inr ⟨by simp, hierr⟩⟩⟩
          · simp [ListRates.finish_calls]
          · simp [ListRates.finish_usedInverse]
      | none =>
        dsimp only
        refine ⟨iff_of_true ?_ htrig, iff_of_false ?_ ?_⟩
        · simp [ListRates.finish_calls]
        · simp [ListRates.finish_usedInverse]
        · rintro ⟨-, hcon | hcon⟩
          · by_cases hierr : ierr = none
            · exact hsel ⟨hierr, hcon⟩
            · rw [if_neg (fun hh : ierr = none ∧ invRates ≠ [] => hierr hh.1)] at hcon
              exact Nat.not_lt_zero _ hcon
          · simp at hcon
  · rw [if_neg htrig]
    refine ⟨iff_of_false ?_ htrig, iff_of_false ?_ fun hcon => htrig hcon.1⟩
    · rw [ListRates.finish_calls]
      split_ifs <;> simp [hne]
    · rw [ListRates.finish_usedInverse]
      simp

/-- Witness for C3: the general reconciliation part applied to the
concrete 3-versus-50 scenario. -/
theorem C3_list_reconciliation_witness :
    pairCNYJPY.base ≠ pairCNYJPY.quote
    ∧ ((ListCall.findAll pairCNYJPY.Inverse ∈ (ListRates.Handle envC3 pairCNYJPY 1 10).calls)
        ↔ ((envC3.findAll pairCNYJPY).2 ≠ none ∨ (envC3.findAll pairCNYJPY).1 = []
          ∨ ListRates.directCountVal envC3 pairCNYJPY < 10)) :=
  ⟨by decide, (C3_list_reconciliation.1 envC3 pairCNYJPY 1 10 (by decide)).1⟩

/-- C9: when the direct page of `FindAll` comes back empty (for
instance because the requested page lies beyond the direct
orientation's rows), the handler never queries the direct-orientation
count — the selection comparison uses 0 for it — so as soon as the
inverse `FindAll` succeeds with at least one row (and the inverse count
is at least 1), the handler switches to the inverse orientation.
Nothing constrains what the store would have answered for the direct
count (`env.count pair` is arbitrary), so this happens even if the
direct orientation holds more rows in total; the full call trace shows
no direct-count call at all. -/
theorem C9_empty_direct_page (env : ListEnv) (pair : Pair) (page pageSize : Int)
    (l : List Rate) (n : Nat)
    (hdir : (env.findAll pair).1 = [])
    (hinv : env.findAll pair.Inverse = (l, none)) (hl : l ≠ [])
    (hcnt : env.count pair.Inverse = (n, none)) (hn : 1 ≤ n) :
    (ListRates.Handle env pair page pageSize).directCountUsed = 0
    ∧ (ListRates.Handle env pair page pageSize).usedInverse = true
    ∧ (ListRates.Handle env pair page pageSize).calls
        = [ListCall.findAll pair, ListCall.findAll pair.Inverse,
            ListCall.count pair.Inverse, ListCall.count pair.Inverse]
    ∧ (ListRates.Handle env pair page pageSize).result = Except.ok
        { items := l.map fun r => ListRates.toDTOInverted r pair,
          pagination := Pagination.calculateTotalPages ⟨page, pageSize, (n : Int), 0⟩ } := by
  rcases hd : env.findAll pair with ⟨rates0, derr⟩
  have hrates0 : rates0 = [] := by
    have := hdir
    rw [hd] at this
    exact this
  subst hrates0
  have h01 : (0 : Nat) < n := Nat.lt_of_lt_of_le Nat.zero_lt_one hn
  unfold ListRates.Handle ListRates.finish
  simp only [hd, hinv, hcnt]
  simp [hl, h01, hcnt]

/-- Witness for C9: a store behaviour whose direct page is empty while
the direct orientation would count 100 rows, and whose inverse
orientation has a single row: the handler switches to the inverse. -/
theorem C9_empty_direct_page_witness :
    (envC9.findAll pairCNYJPY).1 = []
    ∧ envC9.count pairCNYJPY = (100, none)
    ∧ (ListRates.Handle envC9 pairCNYJPY 1 10).directCountUsed = 0
    ∧ (ListRates.Handle envC9 pairCNYJPY 1 10).usedInverse = true
    ∧ (ListRates.Handle envC9 pairCNYJPY 1 10).calls
        = [ListCall.findAll pairCNYJPY, ListCall.findAll pairCNYJPY.Inverse,
            ListCall.count pairCNYJPY.Inverse, ListCall.count pairCNYJPY.Inverse] :=
  ⟨rfl, rfl,
    (C9_empty_direct_page envC9 pairCNYJPY 1 10 [rateJPYCNY] 1 rfl rfl (by simp) rfl
      (le_refl 1)).1,
    (C9_empty_direct_page envC9 pairCNYJPY 1 10 [rateJPYCNY] 1 rfl rfl (by simp) rfl
      (le_refl 1)).2.1,
    (C9_empty_direct_page envC9 pairCNYJPY 1 10 [rateJPYCNY] 1 rfl rfl (by simp) rfl
      (le_refl 1)).2.2.1⟩

/-- C4, evaluated at the failing input: the store's `FindByDateRange`
returns two rows ordered descending by effective date (as the Postgres
repository, which orders by `effective_date DESC`, does); the handler
then reverses them unconditionally — its comment assumes ascending
input — and returns the items in ASCENDING order (oldest first),
contradicting both the claim and the handler's own stated goal of
descending presentation order. -/
theorem C4_date_range_order_eval :
    envC4.findByDateRange pairCNYJPY = ([rLateC4, rEarlyC4], none)
    ∧ rEarlyC4.effectiveDate < rLateC4.effectiveDate
    ∧ (ListRates.handleDateRangeQuery envC4 pairCNYJPY 1 10).result = Except.ok
        { items := [ListRates.toDTO rEarlyC4, ListRates.toDTO rLateC4],
          pagination := ⟨1, 10, 2, 1⟩ }
    ∧ (ListRates.handleDateRangeQuery envC4 pairCNYJPY 1 10).usedInverse = false := by
  refine ⟨rfl, ?_, rfl, rfl⟩
  norm_num [rEarlyC4, rLateC4]
